import Mathlib

/-!
Verification development for the FullSetBackend provider-scraping and
asset-ingestion pipeline (src/scrapper_core.py, src/scrappers/elpatron.py,
src/scrappers/touche.py).

Strings of the Python program are embedded as `List Char`.  External
effects (HTTP fetches, the headless browser, the filesystem) are embedded
as explicit oracles/state: an environment record says which effectful step
succeeds, the disk is a list of existing paths, and each operation returns
its result together with the resulting resource state.  `urljoin BASE ·`
from urllib is kept abstract as a parameter `uj : Str → Str`, since no
claim depends on the internals of RFC 3986 resolution.
-/

abbrev Str := List Char

def str (s : String) : Str := s.toList

/-- Python `str.isspace` restricted to the ASCII whitespace characters
    stripped by `str.strip()` (space, tab, LF, CR, VT, FF). -/
def pyIsSpace (c : Char) : Bool :=
  c == ' ' || c == '\t' || c == '\n' || c == '\r' ||
  c == Char.ofNat 11 || c == Char.ofNat 12

/-- The characters removed by the scrapers' sanitizer regex
    `[\\/*?:"<>|]` (scrapper_core.sanitize_filename and the identical
    copies in both provider modules). -/
def bannedChar (c : Char) : Bool :=
  c == '\\' || c == '/' || c == '*' || c == '?' || c == ':' ||
  c == '\"' || c == '<' || c == '>' || c == '|'

/-- One character of Python's `.replace(" ", "_")`. -/
def replSpace (c : Char) : Char :=
  if c = ' ' then '_' else c

/-- Python `str.strip()`: drop leading whitespace, then drop trailing
    whitespace (implemented by reversing). -/
def pyStrip (l : Str) : Str :=
  ((l.dropWhile pyIsSpace).reverse.dropWhile pyIsSpace).reverse

/-- `sanitize_filename` from scrapper_core.py (duplicated verbatim in
    scrappers/elpatron.py and scrappers/touche.py):
    `re.sub(r'[\\/*?:"<>|]', "", name).strip().replace(" ", "_")`. -/
def sanitize_filename (s : Str) : Str :=
  (pyStrip (s.filter (fun c => !bannedChar c))).map replSpace

/-- `isPrefixB pat s` decides whether `pat` is a prefix of `s`. -/
def isPrefixB : Str → Str → Bool
  | [], _ => true
  | _ :: _, [] => false
  | a :: as, b :: bs => a == b && isPrefixB as bs

/-- Python's substring test `pat in s`. -/
def pyIn (pat : Str) : Str → Bool
  | [] => isPrefixB pat []
  | c :: rest => isPrefixB pat (c :: rest) || pyIn pat rest

/-- Python `s.startswith(pat)`. -/
def pyStartsWith (s pat : Str) : Bool := isPrefixB pat s

/-- POSIX `os.path.join` for the two-component calls made by the code. -/
def ospJoin (a b : Str) : Str :=
  if pyStartsWith b (str "/") then b
  else if a = [] then b
  else if a.getLast? = some '/' then a ++ b
  else a ++ '/' :: b

def takeUntilChar (c : Char) (l : Str) : Str := l.takeWhile (fun x => x != c)

/-- The suffix of `s` right after the first occurrence of `pat`
    (`none` when `pat` does not occur). -/
def afterSub (pat : Str) : Str → Option Str
  | [] => if isPrefixB pat [] then some [] else none
  | c :: rest =>
    if isPrefixB pat (c :: rest) then some ((c :: rest).drop pat.length)
    else afterSub pat rest

/-- `urllib.parse.urlparse(u).path` for the URL shapes the scrapers feed
    it: strip the fragment and query, then strip `scheme://netloc` (or a
    leading `//netloc`) when present. -/
def urlparsePath (u : Str) : Str :=
  let s2 := takeUntilChar '?' (takeUntilChar '#' u)
  match afterSub (str "://") s2 with
  | some rest => rest.dropWhile (fun x => x != '/')
  | none =>
    if pyStartsWith s2 (str "//") then (s2.drop 2).dropWhile (fun x => x != '/')
    else s2

/-- POSIX `os.path.basename`: everything after the last `/`. -/
def basename (p : Str) : Str := (p.reverse.takeWhile (fun x => x != '/')).reverse

/-- Python `str.casefold`, ASCII fragment (uppercase latin → lowercase). -/
def pyCasefold (c : Char) : Char :=
  if 'A' ≤ c ∧ c ≤ 'Z' then Char.ofNat (c.toNat + 32) else c

/-- `touche._norm`: `(s or "").strip().casefold()`. -/
def touche_norm (s : Str) : Str := (pyStrip s).map pyCasefold

structure Categoria where
  nombre : Str
  url : Str
deriving DecidableEq

/-- The failure kinds surfaced by the scraping core, one per distinct
    raise/propagation site of the embedded code. -/
inductive ScrapeErr where
  | fetchFailed
  | browserUnavailable
  | navFailed
  | listingTimeout
  | quitFailed
  | categoryNotFound
deriving DecidableEq

/-- An `<img>` element on a product detail page. -/
structure Img where
  dataSrc : Option Str
  src : Option Str
deriving DecidableEq

/-- Python's `a or b` on two optional strings (an empty string is falsy). -/
def pyOrOpt (a b : Option Str) : Option Str :=
  match a with
  | some s => if s = [] then b else some s
  | none => b

/-- `src = img.get("data-src") or img.get("src"); if not src: continue` —
    the effective source URL of an image candidate, `none` when the
    candidate is skipped. -/
def effSrc (img : Img) : Option Str :=
  match pyOrOpt img.dataSrc img.src with
  | none => none
  | some s => if s = [] then none else some s

namespace elpatron

/-- An anchor inside the elpatron mega-menu (the `href` attribute may be
    missing, mirroring `a.get("href")`). -/
structure Anchor where
  text : Str
  href : Option Str
deriving DecidableEq

/-- Loop body of `elpatron.fetch_categories` (lines 75-81): read and strip
    the href, skip entries whose stripped href is empty, `"#"`, or contains
    `"javascript:"`, and resolve hrefs without `"://"` against the base URL
    (`uj` stands for `urljoin BASE_URL`). -/
def categoriaOfAnchor (uj : Str → Str) (a : Anchor) : Option Categoria :=
  let href := pyStrip (a.href.getD [])
  if href = [] || href = str "#" || pyIn (str "javascript:") href then none
  else some ⟨a.text, if pyIn (str "://") href then href else uj href⟩

/-- The `categorias = []; for a in menu.select(...): ... append` loop:
    each anchor appends its entry when kept (`[cat]`) and nothing when
    skipped (`[]`). -/
def processAnchors (uj : Str → Str) (anchors : List Anchor) : List Categoria :=
  anchors.foldl (fun acc a => acc ++ (categoriaOfAnchor uj a).toList) []

/-- `elpatron.fetch_categories`: GET the homepage (raise_for_status), find
    the menu `ul`; when the menu is absent the accumulator stays `[]`.
    `page = none` models a failed HTTP fetch, `some none` a successful
    fetch whose markup has no menu container, and `some (some anchors)`
    the selected menu anchors in document order. -/
def fetch_categories (uj : Str → Str) (page : Option (Option (List Anchor))) :
    Except ScrapeErr (List Categoria) :=
  match page with
  | none => .error .fetchFailed
  | some none => .ok []
  | some (some anchors) => .ok (processAnchors uj anchors)

/-- The category lookup at the head of `elpatron.update_assets_for_category`
    (lines 176-179): first category whose `nombre` equals the requested
    name exactly, else `ValueError`. -/
def lookupCategoria (name : Str) (cats : List Categoria) : Except ScrapeErr Categoria :=
  match cats.find? (fun c => decide (c.nombre = name)) with
  | none => .error .categoryNotFound
  | some c => .ok c

/-- One element matched by `soup.select(".product")`. -/
structure ProductEl where
  nameText : Option Str
  priceText : Option Str
  linkHref : Option (Option Str)
deriving DecidableEq

structure Producto where
  nombre : Str
  precio : Str
  link : Str
deriving DecidableEq

/-- Loop body of the product parse (lines 122-139): skip elements missing
    the name element or the anchor; default the price to `""`; read
    `href or ""`, strip it, and resolve it unless it contains `"://"`. -/
def productoOfEl (uj : Str → Str) (pe : ProductEl) : Option Producto :=
  match pe.nameText, pe.linkHref with
  | some n, some linkEl =>
    let href := pyStrip (linkEl.getD [])
    some ⟨n, pe.priceText.getD [], if pyIn (str "://") href then href else uj href⟩
  | _, _ => none

def parseProducts (uj : Str → Str) (pes : List ProductEl) : List Producto :=
  pes.foldl
    (fun acc pe =>
      match productoOfEl uj pe with
      | none => acc
      | some p => acc ++ [p])
    []

/-- Environment of one `elpatron.fetch_products_for_category` call: which
    effectful steps succeed, and the parsed page content. -/
structure Env where
  chromeStartOk : Bool
  navOk : Bool
  quitOk : Bool
  products : List ProductEl
deriving DecidableEq

/-- Result of the call together with the final resource state: does the
    temporary Chrome profile directory still exist, and is the browser
    process still running, when the call returns or its exception
    propagates. -/
structure Outcome where
  result : Except ScrapeErr (List Producto)
  profileDirExists : Bool
  browserRunning : Bool

/-- `elpatron.fetch_products_for_category` (lines 110-149) with
    `get_driver` (lines 85-107) inlined.  `tempfile.mkdtemp` creates the
    profile directory before `webdriver.Chrome` is attempted; the
    `try/finally` of `fetch_products_for_category` begins only after
    `get_driver` returns, and its `finally` runs `driver.quit()` and then
    always `shutil.rmtree(ud, ignore_errors=True)` (an exception from
    `quit` supersedes the body's outcome but the rmtree still runs). -/
def fetch_products_for_category (uj : Str → Str) (env : Env) : Outcome :=
  if env.chromeStartOk = false then
    -- webdriver.Chrome raised inside get_driver: the mkdtemp directory
    -- was already created and no cleanup code is reachable.
    ⟨.error .browserUnavailable, true, false⟩
  else
    let body : Except ScrapeErr (List Producto) :=
      if env.navOk = false then .error .navFailed
      else .ok (parseProducts uj env.products)
    if env.quitOk = false then ⟨.error .quitFailed, false, true⟩
    else ⟨body, false, false⟩

def ASSETS_DIR : Str := ospJoin (str "product_assets") (str "elpatron")

/-- Line 209: `fname = sanitize_filename(nombre) + "_" +
    os.path.basename(urlparse(src).path)` (note: the *unresolved* `src`). -/
def fname (nombre src : Str) : Str :=
  sanitize_filename nombre ++ '_' :: basename (urlparsePath src)

/-- The local asset path of `elpatron.update_assets_for_category`
    (lines 209-210): `os.path.join(ASSETS_DIR, fname)`. -/
def localPath (nombre src : Str) : Str :=
  ospJoin ASSETS_DIR (fname nombre src)

/-- The image-download loop of `elpatron.update_assets_for_category`
    (lines 204-222) over one product.  `disk` is the set of paths existing
    on disk, `fetchOk url` tells whether the GET-plus-write of `url`
    succeeds.  Returns the recorded `image_paths` and the final disk.  A
    failed download is caught (`except: continue`): the candidate is
    dropped and the loop continues. -/
def downloadImages (uj : Str → Str) (nombre : Str) (fetchOk : Str → Bool) :
    List Str → List Img → List Str × List Str
  | disk, [] => ([], disk)
  | disk, img :: rest =>
    match effSrc img with
    | none => downloadImages uj nombre fetchOk disk rest
    | some src =>
      let url := uj src
      let lp := localPath nombre src
      if lp ∈ disk then
        let pd := downloadImages uj nombre fetchOk disk rest
        (lp :: pd.1, pd.2)
      else if fetchOk url then
        let pd := downloadImages uj nombre fetchOk (lp :: disk) rest
        (lp :: pd.1, pd.2)
      else
        downloadImages uj nombre fetchOk disk rest

end elpatron

namespace touche

/-- An anchor from `menu.find_all('a', href=True)`: the href is present. -/
structure AnchorH where
  text : Str
  href : Str
deriving DecidableEq

/-- Loop body of `touche.fetch_categories` (lines 72-78): same stripping,
    exclusion and resolution rule as elpatron's. -/
def categoriaOfAnchor (uj : Str → Str) (a : AnchorH) : Option Categoria :=
  let href := pyStrip a.href
  if href = [] || href = str "#" || pyIn (str "javascript:") href then none
  else some ⟨a.text, if pyIn (str "://") href then href else uj href⟩

def processAnchors (uj : Str → Str) (anchors : List AnchorH) : List Categoria :=
  anchors.foldl (fun acc a => acc ++ (categoriaOfAnchor uj a).toList) []

/-- `touche.fetch_categories` (lines 64-79), same shape as elpatron's. -/
def fetch_categories (uj : Str → Str) (page : Option (Option (List AnchorH))) :
    Except ScrapeErr (List Categoria) :=
  match page with
  | none => .error .fetchFailed
  | some none => .ok []
  | some (some anchors) => .ok (processAnchors uj anchors)

/-- The category lookup of `touche.update_assets_for_category`
    (lines 180-184): tolerant match through `_norm` (strip + casefold). -/
def lookupCategoria (name : Str) (cats : List Categoria) : Except ScrapeErr Categoria :=
  match cats.find? (fun c => decide (touche_norm c.nombre = touche_norm name)) with
  | none => .error .categoryNotFound
  | some c => .ok c

/-- One element of `cont.select('div.js-product-item-image-container-private')`. -/
structure Item where
  href : Option Str
  title : Option Str
  text : Str
deriving DecidableEq

structure Producto where
  nombre : Str
  link : Str
deriving DecidableEq

/-- Loop body of the product parse (lines 147-153): skip items without an
    `<a href>`; `nombre = a.get('title') or a.get_text(strip=True)`;
    `link = urljoin(BASE_URL, href)` unconditionally. -/
def productoOfItem (uj : Str → Str) (it : Item) : Option Producto :=
  match it.href with
  | none => none
  | some h =>
    let nombre :=
      match it.title with
      | some t => if t = [] then it.text else t
      | none => it.text
    some ⟨nombre, uj h⟩

/-- Lines 140-154: parse of the final page source; a missing container
    yields `[]` (this point is reached only after the explicit wait on the
    container succeeded). -/
def parseProducts (uj : Str → Str) (container : Option (List Item)) : List Producto :=
  match container with
  | none => []
  | some items =>
    items.foldl
      (fun acc it =>
        match productoOfItem uj it with
        | none => acc
        | some p => acc ++ [p])
      []

/-- Environment of one `touche.fetch_products_for_category` call. -/
structure Env where
  chromeStartOk : Bool
  navOk : Bool
  waitOk : Bool
  quitOk : Bool
  container : Option (List Item)
deriving DecidableEq

structure Outcome where
  result : Except ScrapeErr (List Producto)
  browserRunning : Bool

/-- `touche.fetch_products_for_category` (lines 106-154): the wait
    `WebDriverWait(20).until(presence_of div.js-product-table)` raises a
    timeout when the container never appears; the `finally` wraps
    `driver.quit()` in `try/except: pass`, so a failed quit is swallowed
    (and the process stays up) without changing the call's outcome.
    touche manages no profile directory of its own. -/
def fetch_products_for_category (uj : Str → Str) (env : Env) : Outcome :=
  if env.chromeStartOk = false then ⟨.error .browserUnavailable, false⟩
  else
    let running := env.quitOk = false
    if env.navOk = false then ⟨.error .navFailed, running⟩
    else if env.waitOk = false then ⟨.error .listingTimeout, running⟩
    else ⟨.ok (parseProducts uj env.container), running⟩

/-- The `while True` load-more loop (lines 122-130), with explicit fuel.
    Iteration `i` waits for the control (`clickable i`); on success it
    clicks and repeats, on failure the `except` breaks out after `i`
    successful clicks (`some i`); `none` means the fuel was exhausted
    with the control still clickable. -/
def loadMoreLoop (clickable : Nat → Bool) : Nat → Nat → Option Nat
  | 0, _ => none
  | fuel + 1, i => if clickable i then loadMoreLoop clickable fuel (i + 1) else some i

def isDigitC (c : Char) : Bool := decide ('0' ≤ c ∧ c ≤ '9')

def isWordC (c : Char) : Bool :=
  decide (('a' ≤ c ∧ c ≤ 'z') ∨ ('A' ≤ c ∧ c ≤ 'Z') ∨ ('0' ≤ c ∧ c ≤ '9')) || c == '_'

/-- End-anchored parse of the regex `-(\d+)-(\d+)(\.\w+)$` of line 216.
    Because the pattern is anchored at the end of the string, `re.sub` has
    at most one (leftmost) match, and that match exists exactly when the
    string factors as `p ++ "-" ++ d1 ++ "-" ++ d2 ++ "." ++ w` with `d1`,
    `d2` nonempty digit runs and `w` a nonempty word-character run; the
    factorization is computed here from the reversed string.  Returns
    `(p, w)`. -/
def subWHParse (s : Str) : Option (Str × Str) :=
  let r := s.reverse
  let w := r.takeWhile isWordC
  if w = [] then none
  else
    match r.dropWhile isWordC with
    | '.' :: r2 =>
      let d2 := r2.takeWhile isDigitC
      if d2 = [] then none
      else
        match r2.dropWhile isDigitC with
        | '-' :: r3 =>
          let d1 := r3.takeWhile isDigitC
          if d1 = [] then none
          else
            match r3.dropWhile isDigitC with
            | '-' :: r4 => some (r4.reverse, w.reverse)
            | _ => none
        | _ => none
    | _ => none

/-- Lines 214-216: `if '-1024-1024' not in src: src = re.sub(
    r'-(\d+)-(\d+)(\.\w+)$', r'-1024-1024\3', src)`. -/
def upgradeSrc (s : Str) : Str :=
  if pyIn (str "-1024-1024") s then s
  else
    match subWHParse s with
    | some pw => pw.1 ++ str "-1024-1024." ++ pw.2
    | none => s

def ASSETS_DIR : Str := ospJoin (str "product_assets") (str "touche")

/-- Line 219 first half: touche derives the filename from the *resolved*
    `url`, not the raw `src`. -/
def fname (nombre url : Str) : Str :=
  sanitize_filename nombre ++ '_' :: basename (urlparsePath url)

/-- The local asset path of `touche.update_assets_for_category`
    (lines 219-220): `os.path.join(ASSETS_DIR, fname)`. -/
def localPath (nombre url : Str) : Str :=
  ospJoin ASSETS_DIR (fname nombre url)

/-- Lines 214-217: the candidate src after the resolution-upgrade attempt,
    resolved against the base URL unless it starts with `"http"`. -/
def resolvedUrl (uj : Str → Str) (src0 : Str) : Str :=
  let src := upgradeSrc src0
  if pyStartsWith src (str "http") then src else uj src

/-- The image loop of `touche.update_assets_for_category` (lines 210-228)
    over one product.  With no try/except around the GET and the write,
    a failed download raises and aborts the whole loop. -/
def downloadImages (uj : Str → Str) (nombre : Str) (fetchOk : Str → Bool) :
    List Str → List Img → Except ScrapeErr (List Str × List Str)
  | disk, [] => .ok ([], disk)
  | disk, img :: rest =>
    match effSrc img with
    | none => downloadImages uj nombre fetchOk disk rest
    | some src0 =>
      let url := resolvedUrl uj src0
      let lp := localPath nombre url
      if lp ∈ disk then
        match downloadImages uj nombre fetchOk disk rest with
        | .error e => .error e
        | .ok pd => .ok (lp :: pd.1, pd.2)
      else if fetchOk url then
        match downloadImages uj nombre fetchOk (lp :: disk) rest with
        | .error e => .error e
        | .ok pd => .ok (lp :: pd.1, pd.2)
      else .error .fetchFailed

end touche

/-- Modelled from the spec (§6 external interfaces), for comparison with
    the code's actual layout: a path of the claimed shape
    `root/provider/sanitized-category-or-sku/sanitized-filename`, i.e.
    `"product_assets"` then the provider, then a slash-free category (or
    SKU) segment, then a slash-free filename segment. -/
def claimAssetLayout (provider p : Str) : Prop :=
  ∃ c f, (∀ x ∈ c, x ≠ '/') ∧ (∀ x ∈ f, x ≠ '/') ∧
    p = str "product_assets" ++ '/' :: provider ++ '/' :: c ++ '/' :: f

-- ————— Theorems —————

theorem head?_dropWhile (p : Char → Bool) :
    ∀ (l : Str) (c : Char), (l.dropWhile p).head? = some c → p c = false := by
  intro l
  induction l with
  | nil => intro c h; simp [List.dropWhile] at h
  | cons a l ih =>
    intro c h
    by_cases hpa : p a = true
    · rw [List.dropWhile_cons, if_pos hpa] at h
      exact ih c h
    · rw [List.dropWhile_cons, if_neg hpa] at h
      simp only [List.head?_cons, Option.some.injEq] at h
      subst h
      simpa using hpa

theorem dropWhile_eq_self_of_head (p : Char → Bool) (l : Str)
    (h : ∀ c, l.head? = some c → p c = false) : l.dropWhile p = l := by
  cases l with
  | nil => rfl
  | cons a l =>
    have ha : p a = false := h a rfl
    rw [List.dropWhile_cons, if_neg (by simp [ha])]

theorem getLast?_dropWhile (p : Char → Bool) :
    ∀ (l : Str), l.dropWhile p ≠ [] → (l.dropWhile p).getLast? = l.getLast? := by
  intro l
  induction l with
  | nil => intro h; simp [List.dropWhile] at h
  | cons a l ih =>
    intro hne
    by_cases hpa : p a = true
    · rw [List.dropWhile_cons, if_pos hpa] at hne ⊢
      have hl : l ≠ [] := by
        intro h; subst h; simp [List.dropWhile] at hne
      rw [ih hne]
      cases l with
      | nil => exact absurd rfl hl
      | cons b l2 => exact (List.getLast?_cons_cons).symm
    · rw [List.dropWhile_cons, if_neg hpa]

theorem mem_pyStrip {c : Char} {l : Str} (h : c ∈ pyStrip l) : c ∈ l := by
  unfold pyStrip at h
  rw [List.mem_reverse] at h
  have h2 := (List.dropWhile_sublist (l := (l.dropWhile pyIsSpace).reverse)
    (p := pyIsSpace)).mem h
  rw [List.mem_reverse] at h2
  exact (List.dropWhile_sublist (l := l) (p := pyIsSpace)).mem h2

theorem mem_sanitize {c : Char} {s : Str} (h : c ∈ sanitize_filename s) :
    bannedChar c = false ∧ c ≠ ' ' := by
  unfold sanitize_filename at h
  rcases List.mem_map.mp h with ⟨c0, hc0, hrc⟩
  have hmem : c0 ∈ s.filter (fun c => !bannedChar c) := mem_pyStrip hc0
  have hban : bannedChar c0 = false := by
    have := (List.mem_filter.mp hmem).2
    simpa using this
  by_cases hsp : c0 = ' '
  · subst hsp
    have : c = '_' := by rw [← hrc]; rfl
    subst this
    exact ⟨rfl, by decide⟩
  · have : c = c0 := by rw [← hrc]; simp [replSpace, hsp]
    subst this
    exact ⟨hban, hsp⟩

theorem pyStrip_eq_self (l : Str)
    (h1 : ∀ c, l.head? = some c → pyIsSpace c = false)
    (h2 : ∀ c, l.reverse.head? = some c → pyIsSpace c = false) :
    pyStrip l = l := by
  unfold pyStrip
  rw [dropWhile_eq_self_of_head pyIsSpace l h1,
      dropWhile_eq_self_of_head pyIsSpace l.reverse h2,
      List.reverse_reverse]

theorem pyStrip_head (l : Str) :
    ∀ c, (pyStrip l).head? = some c → pyIsSpace c = false := by
  intro c hc
  unfold pyStrip at hc
  set A := l.dropWhile pyIsSpace with hA
  set C := A.reverse.dropWhile pyIsSpace with hC
  have hCne : C ≠ [] := by
    intro h
    rw [h] at hc
    simp at hc
  rw [List.head?_reverse] at hc
  have hlast : C.getLast? = A.reverse.getLast? := getLast?_dropWhile _ _ hCne
  rw [hlast, List.getLast?_reverse] at hc
  exact head?_dropWhile pyIsSpace l c hc

theorem pyStrip_last (l : Str) :
    ∀ c, (pyStrip l).reverse.head? = some c → pyIsSpace c = false := by
  intro c hc
  unfold pyStrip at hc
  rw [List.reverse_reverse] at hc
  exact head?_dropWhile pyIsSpace _ c hc

theorem sanitize_no_space {c : Char} {s : Str} (h : c ∈ sanitize_filename s) :
    c ≠ ' ' := (mem_sanitize h).2

theorem replSpace_nonspace {c : Char} (h : pyIsSpace c = false) :
    pyIsSpace (replSpace c) = false := by
  have hc : c ≠ ' ' := by
    intro he; subst he; simp [pyIsSpace] at h
  rw [replSpace, if_neg hc]
  exact h

/-- C6: `sanitize_filename` is idempotent, and its output never contains
    any of the characters `\ / * ? : " < > |` nor a space character. -/
theorem c6_sanitize_idempotent_and_safe (s : Str) :
    sanitize_filename (sanitize_filename s) = sanitize_filename s ∧
    ∀ c, c ∈ sanitize_filename s → bannedChar c = false ∧ c ≠ ' ' := by
  constructor
  · have hX : sanitize_filename s
        = (pyStrip (s.filter (fun c => !bannedChar c))).map replSpace := rfl
    set t := pyStrip (s.filter (fun c => !bannedChar c)) with ht
    set X := sanitize_filename s with hXs
    have hfilter : X.filter (fun c => !bannedChar c) = X := by
      apply List.filter_eq_self.mpr
      intro a ha
      have := (mem_sanitize (hXs ▸ ha)).1
      simp [this]
    have hstrip : pyStrip X = X := by
      apply pyStrip_eq_self
      · intro c hc
        rw [hX, List.head?_map] at hc
        rcases Option.map_eq_some'.mp hc with ⟨c0, hc0, hfc⟩
        exact hfc ▸ replSpace_nonspace (pyStrip_head _ c0 (ht ▸ hc0))
      · intro c hc
        rw [hX, ← List.map_reverse, List.head?_map] at hc
        rcases Option.map_eq_some'.mp hc with ⟨c0, hc0, hfc⟩
        exact hfc ▸ replSpace_nonspace (pyStrip_last _ c0 (ht ▸ hc0))
    have hmap : X.map replSpace = X := by
      have : ∀ c ∈ X, replSpace c = c := by
        intro c hc
        have := (mem_sanitize (hXs ▸ hc)).2
        simp [replSpace, this]
      calc X.map replSpace = X.map id := List.map_congr_left (by simpa using this)
        _ = X := List.map_id X
    show sanitize_filename X = X
    rw [sanitize_filename, hfilter, hstrip, hmap]
  · intro c hc
    exact mem_sanitize hc

/-- Witness for C6 at a concrete input: `"a b"` sanitizes to `"a_b"`,
    re-sanitizing is a fixed point, and the member `'a'` is safe. -/
theorem c6_witness :
    sanitize_filename (sanitize_filename (str "a b"))
      = sanitize_filename (str "a b") ∧
    (bannedChar 'a' = false ∧ 'a' ≠ ' ') :=
  ⟨(c6_sanitize_idempotent_and_safe (str "a b")).1,
   (c6_sanitize_idempotent_and_safe (str "a b")).2 'a' (by decide)⟩

theorem exceptOfFind_error_iff (p : Categoria → Bool) (l : List Categoria) :
    (match l.find? p with
     | none => (Except.error ScrapeErr.categoryNotFound : Except ScrapeErr Categoria)
     | some c => Except.ok c) = Except.error ScrapeErr.categoryNotFound ↔
    ∀ x ∈ l, ¬ p x := by
  cases h : l.find? p with
  | none => simpa using List.find?_eq_none.mp h
  | some c =>
    simp only []
    constructor
    · intro hcontr; exact absurd hcontr (by simp)
    · intro hall
      exact absurd (List.find?_some h) (by simpa using hall c (List.mem_of_find?_eq_some h))

/-- C4 (amended): elpatron's category lookup matches by exact string
    equality and raises iff no discovered category has exactly the
    requested name; touche's lookup instead compares the strip+casefold
    normalizations, and raises iff no category matches modulo that
    normalization. -/
theorem c4_amended_lookup_rules (name : Str) (cats : List Categoria) :
    (elpatron.lookupCategoria name cats = Except.error ScrapeErr.categoryNotFound ↔
      ∀ c ∈ cats, c.nombre ≠ name) ∧
    (touche.lookupCategoria name cats = Except.error ScrapeErr.categoryNotFound ↔
      ∀ c ∈ cats, touche_norm c.nombre ≠ touche_norm name) := by
  constructor
  · have h := exceptOfFind_error_iff (fun c => decide (c.nombre = name)) cats
    simpa [elpatron.lookupCategoria] using h
  · have h := exceptOfFind_error_iff
      (fun c => decide (touche_norm c.nombre = touche_norm name)) cats
    simpa [touche.lookupCategoria] using h

/-- C4 counterexample: touche's lookup succeeds on `"ROPA "` against a
    discovered category named exactly `"Ropa"`, although no discovered
    category has exactly the requested name — so the lookup is not
    exact-match and does not raise where the claim says it must. -/
theorem c4_counterexample_tolerant_match :
    touche.lookupCategoria (str "ROPA ") [⟨str "Ropa", str "u"⟩]
      = Except.ok ⟨str "Ropa", str "u"⟩ ∧
    str "ROPA " ≠ str "Ropa" := by
  exact ⟨rfl, by decide⟩

/-- Witness for C4 (amended) at concrete inputs: on an empty category
    list both lookups raise the category-not-found error. -/
theorem c4_witness :
    elpatron.lookupCategoria (str "X") [] = Except.error ScrapeErr.categoryNotFound ∧
    touche.lookupCategoria (str "X") [] = Except.error ScrapeErr.categoryNotFound :=
  ⟨(c4_amended_lookup_rules (str "X") []).1.mpr (by simp),
   (c4_amended_lookup_rules (str "X") []).2.mpr (by simp)⟩

theorem loadMoreLoop_exact (N : Nat) :
    ∀ (fuel i : Nat), i ≤ N → N - i < fuel →
      touche.loadMoreLoop (fun j => decide (j < N)) fuel i = some N := by
  intro fuel
  induction fuel with
  | zero => intro i _ h; omega
  | succ fuel ih =>
    intro i hile hfuel
    by_cases hi : i < N
    · rw [touche.loadMoreLoop, if_pos (by simpa using hi)]
      exact ih (i + 1) (by omega) (by omega)
    · have : i = N := by omega
      subst this
      rw [touche.loadMoreLoop, if_neg (by simp)]

/-- C7: if the "load more" control is clickable exactly on the first `N`
    waits and not clickable afterwards, the pagination loop terminates
    after exactly `N` successful clicks — i.e. `N + 1` loop iterations
    (wait-and-click attempts) — for any fuel of at least `N + 1`
    iterations, so the `while True` loop does not hang. -/
theorem c7_load_more_terminates (N fuel : Nat) (h : N + 1 ≤ fuel) :
    touche.loadMoreLoop (fun j => decide (j < N)) fuel 0 = some N :=
  loadMoreLoop_exact N fuel 0 (Nat.zero_le N) (by omega)

/-- Witness for C7: three clicks, fuel ten. -/
theorem c7_witness :
    touche.loadMoreLoop (fun j => decide (j < 3)) 10 0 = some 3 :=
  c7_load_more_terminates 3 10 (by omega)

/-- C1 (code bug): evaluating `elpatron.fetch_products_for_category` in an
    environment where `webdriver.Chrome` raises inside `get_driver`
    (browser start failure): the call propagates the failure while the
    profile directory freshly created by `tempfile.mkdtemp` still exists —
    the cleanup in the caller's `finally` is unreachable because the
    `try` begins only after `get_driver` has returned. -/
theorem c1_profile_leak_on_start_failure :
    elpatron.fetch_products_for_category (fun s => s)
        ⟨false, true, true, []⟩
      = ⟨Except.error ScrapeErr.browserUnavailable, true, false⟩ := rfl

/-- C5 (amended): touche's listing extraction waits for the product-table
    container and propagates a timeout error when it never appears;
    elpatron performs no such wait and returns `ok []` when the page shows
    no product elements at all. -/
theorem c5_amended_listing_container (uj : Str → Str)
    (envT : touche.Env) (envE : elpatron.Env) :
    (envT.chromeStartOk = true → envT.navOk = true → envT.waitOk = false →
      (touche.fetch_products_for_category uj envT).result
        = Except.error ScrapeErr.listingTimeout) ∧
    (envE.chromeStartOk = true → envE.navOk = true → envE.quitOk = true →
      envE.products = [] →
      (elpatron.fetch_products_for_category uj envE).result = Except.ok []) := by
  constructor
  · intro h1 h2 h3
    simp [touche.fetch_products_for_category, h1, h2, h3]
  · intro h1 h2 h3 h4
    simp [elpatron.fetch_products_for_category, h1, h2, h3, h4, elpatron.parseProducts]

/-- C5 counterexample: with the browser, navigation and quit all
    succeeding but no product-listing content ever appearing in the page,
    `elpatron.fetch_products_for_category` returns `ok []` normally
    instead of failing with a ListingUnavailable-style error. -/
theorem c5_counterexample_elpatron_silent_empty :
    (elpatron.fetch_products_for_category (fun s => s)
        ⟨true, true, true, []⟩).result = Except.ok [] := rfl

/-- Witness for C5 (amended) at a concrete environment. -/
theorem c5_witness :
    (touche.fetch_products_for_category (fun s => s)
        ⟨true, true, false, true, none⟩).result
      = Except.error ScrapeErr.listingTimeout :=
  (c5_amended_listing_container (fun s => s)
      ⟨true, true, false, true, none⟩ ⟨true, true, true, []⟩).1 rfl rfl rfl

/-- C10: for both providers, a successful homepage fetch whose markup
    lacks the navigation-menu container yields `ok []` — the empty
    category list — rather than an error. -/
theorem c10_menu_absent_returns_empty (uj : Str → Str) :
    elpatron.fetch_categories uj (some none) = Except.ok [] ∧
    touche.fetch_categories uj (some none) = Except.ok [] :=
  ⟨rfl, rfl⟩

theorem foldl_append_filterMap {α β : Type} (f : α → Option β) :
    ∀ (l : List α) (acc : List β),
      l.foldl (fun acc a => acc ++ (f a).toList) acc = acc ++ l.filterMap f := by
  intro l
  induction l with
  | nil => intro acc; simp
  | cons a l ih =>
    intro acc
    cases hfa : f a with
    | none => simp [List.foldl_cons, hfa, ih, List.filterMap_cons]
    | some cat => simp [List.foldl_cons, hfa, ih, List.filterMap_cons]

/-- C8 (amended): both providers' category parses are exactly a filterMap,
    in document order, of the per-anchor rule over the menu anchors: an
    anchor is kept iff its whitespace-stripped link is nonempty, differs
    from `"#"`, and does not contain the substring `"javascript:"`
    anywhere; kept links containing `"://"` are taken verbatim and all
    others are resolved against the base URL; entries with duplicate
    names are all kept, never merged. -/
theorem c8_amended_categories_are_filterMap (uj : Str → Str)
    (as1 : List elpatron.Anchor) (as2 : List touche.AnchorH) :
    elpatron.processAnchors uj as1
      = as1.filterMap (elpatron.categoriaOfAnchor uj) ∧
    touche.processAnchors uj as2
      = as2.filterMap (touche.categoriaOfAnchor uj) := by
  constructor
  · simpa [elpatron.processAnchors]
      using foldl_append_filterMap (elpatron.categoriaOfAnchor uj) as1 []
  · simpa [touche.processAnchors]
      using foldl_append_filterMap (touche.categoriaOfAnchor uj) as2 []

/-- C8 counterexample: an anchor whose link merely *contains*
    `"javascript:"` in its query string — a normal `https` URL, not a
    javascript: pseudo-URL (it is nonempty, differs from `"#"` and does
    not start with the `javascript:` scheme) — is nevertheless excluded
    by `fetch_categories`. -/
theorem c8_counterexample_substring_exclusion :
    elpatron.fetch_categories (fun s => s)
        (some (some [⟨str "Promo", some (str "https://ex.com/?u=javascript:alert(1)")⟩]))
      = Except.ok [] ∧
    str "https://ex.com/?u=javascript:alert(1)" ≠ [] ∧
    str "https://ex.com/?u=javascript:alert(1)" ≠ str "#" ∧
    pyStartsWith (str "https://ex.com/?u=javascript:alert(1)") (str "javascript:")
      = false := by
  refine ⟨rfl, by decide, by decide, by decide⟩

theorem elpatron_downloadImages_spec (uj : Str → Str) (nombre : Str)
    (fetchOk : Str → Bool) :
    ∀ (imgs : List Img) (disk : List Str),
      (∀ q ∈ disk, q ∈ (elpatron.downloadImages uj nombre fetchOk disk imgs).2) ∧
      (∀ p ∈ (elpatron.downloadImages uj nombre fetchOk disk imgs).1,
        p ∈ (elpatron.downloadImages uj nombre fetchOk disk imgs).2 ∧
        ∃ src, p = elpatron.localPath nombre src) := by
  intro imgs
  induction imgs with
  | nil =>
    intro disk
    refine ⟨?_, ?_⟩
    · intro q hq
      simpa [elpatron.downloadImages] using hq
    · intro p hp
      simp [elpatron.downloadImages] at hp
  | cons img rest ih =>
    intro disk
    cases hsrc : effSrc img with
    | none =>
      refine ⟨?_, ?_⟩
      · intro q hq
        simp only [elpatron.downloadImages, hsrc]
        exact (ih disk).1 q hq
      · intro p hp
        simp only [elpatron.downloadImages, hsrc] at hp ⊢
        exact (ih disk).2 p hp
    | some src =>
      by_cases hmem : elpatron.localPath nombre src ∈ disk
      · have hred : elpatron.downloadImages uj nombre fetchOk disk (img :: rest)
            = (elpatron.localPath nombre src
                 :: (elpatron.downloadImages uj nombre fetchOk disk rest).1,
               (elpatron.downloadImages uj nombre fetchOk disk rest).2) := by
          simp [elpatron.downloadImages, hsrc, hmem]
        refine ⟨?_, ?_⟩
        · intro q hq
          rw [hred]
          exact (ih disk).1 q hq
        · intro p hp
          rw [hred] at hp ⊢
          rcases List.mem_cons.mp hp with h | h
          · subst h
            exact ⟨(ih disk).1 _ hmem, ⟨src, rfl⟩⟩
          · exact (ih disk).2 p h
      · by_cases hfetch : fetchOk (uj src) = true
        · have hred : elpatron.downloadImages uj nombre fetchOk disk (img :: rest)
              = (elpatron.localPath nombre src
                   :: (elpatron.downloadImages uj nombre fetchOk
                        (elpatron.localPath nombre src :: disk) rest).1,
                 (elpatron.downloadImages uj nombre fetchOk
                    (elpatron.localPath nombre src :: disk) rest).2) := by
            simp [elpatron.downloadImages, hsrc, hmem, hfetch]
          refine ⟨?_, ?_⟩
          · intro q hq
            rw [hred]
            exact (ih _).1 q (List.mem_cons_of_mem _ hq)
          · intro p hp
            rw [hred] at hp ⊢
            rcases List.mem_cons.mp hp with h | h
            · subst h
              exact ⟨(ih _).1 _ (List.mem_cons_self _ _), ⟨src, rfl⟩⟩
            · exact (ih _).2 p h
        · have hred : elpatron.downloadImages uj nombre fetchOk disk (img :: rest)
              = elpatron.downloadImages uj nombre fetchOk disk rest := by
            simp [elpatron.downloadImages, hsrc, hmem, hfetch]
          refine ⟨?_, ?_⟩
          · intro q hq
            rw [hred]
            exact (ih disk).1 q hq
          · intro p hp
            rw [hred] at hp ⊢
            exact (ih disk).2 p hp

theorem touche_downloadImages_spec (uj : Str → Str) (nombre : Str)
    (fetchOk : Str → Bool) :
    ∀ (imgs : List Img) (disk ps d2 : List Str),
      touche.downloadImages uj nombre fetchOk disk imgs = Except.ok (ps, d2) →
      (∀ q ∈ disk, q ∈ d2) ∧
      (∀ p ∈ ps, p ∈ d2 ∧ ∃ url, p = touche.localPath nombre url) := by
  intro imgs
  induction imgs with
  | nil =>
    intro disk ps d2 h
    simp only [touche.downloadImages, Except.ok.injEq, Prod.mk.injEq] at h
    obtain ⟨h1, h2⟩ := h
    subst h1; subst h2
    exact ⟨fun q hq => hq, fun p hp => absurd hp (by simp)⟩
  | cons img rest ih =>
    intro disk ps d2 h
    cases hsrc : effSrc img with
    | none =>
      simp only [touche.downloadImages, hsrc] at h
      exact ih disk ps d2 h
    | some src0 =>
      simp only [touche.downloadImages, hsrc] at h
      by_cases hmem :
          touche.localPath nombre (touche.resolvedUrl uj src0) ∈ disk
      · rw [if_pos hmem] at h
        cases hrec : touche.downloadImages uj nombre fetchOk disk rest with
        | error e => rw [hrec] at h; exact absurd h (by simp)
        | ok pd =>
          rw [hrec] at h
          simp only [Except.ok.injEq, Prod.mk.injEq] at h
          obtain ⟨h1, h2⟩ := h
          subst h1; subst h2
          have ihre := ih disk pd.1 pd.2 (by rw [hrec])
          refine ⟨fun q hq => ihre.1 q hq, ?_⟩
          intro p hp
          rcases List.mem_cons.mp hp with hcase | hcase
          · subst hcase
            exact ⟨ihre.1 _ hmem, ⟨touche.resolvedUrl uj src0, rfl⟩⟩
          · exact ihre.2 p hcase
      · rw [if_neg hmem] at h
        by_cases hfetch : fetchOk (touche.resolvedUrl uj src0) = true
        · rw [if_pos hfetch] at h
          cases hrec : touche.downloadImages uj nombre fetchOk
              (touche.localPath nombre (touche.resolvedUrl uj src0) :: disk) rest with
          | error e => rw [hrec] at h; exact absurd h (by simp)
          | ok pd =>
            rw [hrec] at h
            simp only [Except.ok.injEq, Prod.mk.injEq] at h
            obtain ⟨h1, h2⟩ := h
            subst h1; subst h2
            have ihre := ih _ pd.1 pd.2 (by rw [hrec])
            refine ⟨fun q hq => ihre.1 q (List.mem_cons_of_mem _ hq), ?_⟩
            intro p hp
            rcases List.mem_cons.mp hp with hcase | hcase
            · subst hcase
              exact ⟨ihre.1 _ (List.mem_cons_self _ _),
                     ⟨touche.resolvedUrl uj src0, rfl⟩⟩
            · exact ihre.2 p hcase
        · rw [if_neg hfetch] at h
          exact absurd h (by simp)

/-- C2 (amended): in elpatron, a failed image GET/write drops the
    candidate and the loop continues (the loop is total and returns
    normally), and every path recorded in the snapshot's image list
    exists on disk at the moment the snapshot is written; in touche a
    failed image GET/write raises and aborts the surrounding product and
    category scrape, and only when every needed download succeeds does it
    return normally — in which case its recorded paths likewise all exist
    on disk. -/
theorem c2_amended_asset_failures (uj : Str → Str) (nombre : Str)
    (fetchOk : Str → Bool) :
    (∀ disk imgs p, p ∈ (elpatron.downloadImages uj nombre fetchOk disk imgs).1 →
        p ∈ (elpatron.downloadImages uj nombre fetchOk disk imgs).2) ∧
    (∀ disk imgs ps d2,
        touche.downloadImages uj nombre fetchOk disk imgs = Except.ok (ps, d2) →
        ∀ p ∈ ps, p ∈ d2) ∧
    (∀ disk rest img src0, effSrc img = some src0 →
        touche.localPath nombre (touche.resolvedUrl uj src0) ∉ disk →
        fetchOk (touche.resolvedUrl uj src0) = false →
        touche.downloadImages uj nombre fetchOk disk (img :: rest)
          = Except.error ScrapeErr.fetchFailed) := by
  refine ⟨?_, ?_, ?_⟩
  · intro disk imgs p hp
    exact ((elpatron_downloadImages_spec uj nombre fetchOk imgs disk).2 p hp).1
  · intro disk imgs ps d2 h p hp
    exact ((touche_downloadImages_spec uj nombre fetchOk imgs disk ps d2 h).2 p hp).1
  · intro disk rest img src0 hsrc hmem hfetch
    simp [touche.downloadImages, hsrc, hmem, hfetch]

/-- C2 counterexample: a single candidate image whose download fails
    makes `touche.downloadImages` raise (abort the product scrape)
    instead of dropping the candidate and returning the remaining
    results, as the claim requires for every provider. -/
theorem c2_counterexample_touche_download_abort :
    touche.downloadImages (fun s => s) (str "P") (fun _ => false) []
        [⟨some (str "https://c/i.jpg"), none⟩]
      = Except.error ScrapeErr.fetchFailed := rfl

/-- Witness for C2 (amended): a concrete successful elpatron run in which
    the single recorded path is on the final disk. -/
theorem c2_witness :
    str "product_assets/elpatron/P_i.jpg"
      ∈ (elpatron.downloadImages (fun s => s) (str "P") (fun _ => true) []
          [⟨some (str "https://c/i.jpg"), none⟩]).2 :=
  (c2_amended_asset_failures (fun s => s) (str "P") (fun _ => true)).1 []
    [⟨some (str "https://c/i.jpg"), none⟩]
    (str "product_assets/elpatron/P_i.jpg") (by decide)

theorem mem_takeWhile_pred (p : Char → Bool) :
    ∀ (l : Str) (x : Char), x ∈ l.takeWhile p → p x = true := by
  intro l
  induction l with
  | nil => intro x h; simp [List.takeWhile] at h
  | cons a l ih =>
    intro x h
    rw [List.takeWhile_cons] at h
    by_cases hpa : p a = true
    · rw [if_pos hpa] at h
      rcases List.mem_cons.mp h with h | h
      · subst h; exact hpa
      · exact ih x h
    · rw [if_neg hpa] at h
      simp at h

theorem mem_basename_ne_slash {x : Char} {q : Str} (h : x ∈ basename q) :
    x ≠ '/' := by
  unfold basename at h
  rw [List.mem_reverse] at h
  have := mem_takeWhile_pred (fun c => c != '/') q.reverse x h
  simpa using this

theorem mem_sanitizedFname {x : Char} {n q : Str}
    (h : x ∈ sanitize_filename n ++ '_' :: basename q) : x ≠ '/' := by
  rcases List.mem_append.mp h with h | h
  · intro he
    subst he
    exact absurd (mem_sanitize h).1 (by decide)
  · rcases List.mem_cons.mp h with h | h
    · subst h; decide
    · exact mem_basename_ne_slash h

theorem startsWithSlash_false_of_all (f : Str) (h : ∀ x ∈ f, x ≠ '/') :
    pyStartsWith f (str "/") = false := by
  cases f with
  | nil => rfl
  | cons c rest =>
    have hc : c ≠ '/' := h c (List.mem_cons_self c rest)
    have h1 : str "/" = ['/'] := by decide
    rw [pyStartsWith, h1]
    show ('/' == c && isPrefixB [] rest) = false
    rw [show isPrefixB [] rest = true from rfl, Bool.and_true]
    exact beq_eq_false_iff_ne.mpr (Ne.symm hc)

theorem ospJoin_app (dir f : Str) (h1 : pyStartsWith f (str "/") = false)
    (h2 : dir ≠ []) (h3 : dir.getLast? ≠ some '/') :
    ospJoin dir f = dir ++ '/' :: f := by
  simp [ospJoin, h1, h2, h3]

/-- C3 (amended): every asset file path is
    `product_assets/<provider>/<fname>` — exactly two directory levels,
    with NO per-category (or per-SKU) segment — where `fname` is the
    sanitized product name, an underscore, and the basename of the URL
    path, and `fname` contains no path separator; and every path recorded
    in a snapshot's image list is of exactly this shape. -/
theorem c3_amended_two_level_layout (uj : Str → Str) (nombre : Str)
    (fetchOk : Str → Bool) :
    (∀ src, (∀ x ∈ elpatron.fname nombre src, x ≠ '/') ∧
        elpatron.localPath nombre src
          = str "product_assets/elpatron" ++ '/' :: elpatron.fname nombre src) ∧
    (∀ url, (∀ x ∈ touche.fname nombre url, x ≠ '/') ∧
        touche.localPath nombre url
          = str "product_assets/touche" ++ '/' :: touche.fname nombre url) ∧
    (∀ disk imgs p, p ∈ (elpatron.downloadImages uj nombre fetchOk disk imgs).1 →
        ∃ src, p = elpatron.localPath nombre src) ∧
    (∀ disk imgs ps d2,
        touche.downloadImages uj nombre fetchOk disk imgs = Except.ok (ps, d2) →
        ∀ p ∈ ps, ∃ url, p = touche.localPath nombre url) := by
  refine ⟨?_, ?_, ?_, ?_⟩
  · intro src
    have hmem : ∀ x ∈ elpatron.fname nombre src, x ≠ '/' :=
      fun x hx => mem_sanitizedFname hx
    refine ⟨hmem, ?_⟩
    show ospJoin elpatron.ASSETS_DIR (elpatron.fname nombre src) = _
    rw [ospJoin_app _ _ (startsWithSlash_false_of_all _ hmem) (by decide) (by decide)]
    have : elpatron.ASSETS_DIR = str "product_assets/elpatron" := by decide
    rw [this]
  · intro url
    have hmem : ∀ x ∈ touche.fname nombre url, x ≠ '/' :=
      fun x hx => mem_sanitizedFname hx
    refine ⟨hmem, ?_⟩
    show ospJoin touche.ASSETS_DIR (touche.fname nombre url) = _
    rw [ospJoin_app _ _ (startsWithSlash_false_of_all _ hmem) (by decide) (by decide)]
    have : touche.ASSETS_DIR = str "product_assets/touche" := by decide
    rw [this]
  · intro disk imgs p hp
    exact ((elpatron_downloadImages_spec uj nombre fetchOk imgs disk).2 p hp).2
  · intro disk imgs ps d2 h p hp
    exact ((touche_downloadImages_spec uj nombre fetchOk imgs disk ps d2 h).2 p hp).2

/-- C3 counterexample: the concrete asset path for product "Gold Ring"
    and image `https://cdn/x/img.jpg` is
    `product_assets/elpatron/Gold_Ring_img.jpg`, which does NOT factor as
    the claimed `root/provider/sanitized-category-or-sku/sanitized-filename`
    layout — there is no category segment (the path has two slashes where
    that layout requires three). -/
theorem c3_counterexample_no_category_segment :
    ¬ claimAssetLayout (str "elpatron")
        (elpatron.localPath (str "Gold Ring") (str "https://cdn/x/img.jpg")) := by
  intro hlay
  rcases hlay with ⟨c, f, hc, hf, heq⟩
  have hval : elpatron.localPath (str "Gold Ring") (str "https://cdn/x/img.jpg")
      = str "product_assets/elpatron/Gold_Ring_img.jpg" := by decide
  rw [hval] at heq
  have hcount := congrArg (fun l : Str => l.count '/') heq
  have hc0 : c.count '/' = 0 := by
    rw [List.count_eq_zero]
    intro hmem; exact hc '/' hmem rfl
  have hf0 : f.count '/' = 0 := by
    rw [List.count_eq_zero]
    intro hmem; exact hf '/' hmem rfl
  have hlit : (str "product_assets/elpatron/Gold_Ring_img.jpg").count '/' = 2 := by
    decide
  have hpa : (str "product_assets").count '/' = 0 := by decide
  have hel : (str "elpatron").count '/' = 0 := by decide
  simp only [List.count_append, List.count_cons_self] at hcount
  rw [hlit, hpa, hel, hc0, hf0] at hcount
  omega

/-- Witness for C3 (amended): the recorded path of a concrete elpatron
    run is a `localPath`. -/
theorem c3_witness :
    ∃ src, str "product_assets/elpatron/P_i.jpg"
      = elpatron.localPath (str "P") src :=
  (c3_amended_two_level_layout (fun s => s) (str "P") (fun _ => true)).2.2.1
    [] [⟨some (str "https://c/i.jpg"), none⟩]
    (str "product_assets/elpatron/P_i.jpg") (by decide)

theorem takeWhile_all_append (p : Char → Bool) :
    ∀ (l : Str) (c : Char) (r : Str), (∀ x ∈ l, p x = true) → p c = false →
      (l ++ c :: r).takeWhile p = l := by
  intro l
  induction l with
  | nil =>
    intro c r _ hc
    simp [List.takeWhile_cons, hc]
  | cons a l ih =>
    intro c r hall hc
    have ha : p a = true := hall a (List.mem_cons_self a l)
    simp only [List.cons_append, List.takeWhile_cons, ha, if_true]
    rw [ih c r (fun x hx => hall x (List.mem_cons_of_mem a hx)) hc]

theorem dropWhile_all_append (p : Char → Bool) :
    ∀ (l : Str) (c : Char) (r : Str), (∀ x ∈ l, p x = true) → p c = false →
      (l ++ c :: r).dropWhile p = c :: r := by
  intro l
  induction l with
  | nil =>
    intro c r _ hc
    simp [List.dropWhile_cons, hc]
  | cons a l ih =>
    intro c r hall hc
    have ha : p a = true := hall a (List.mem_cons_self a l)
    simp only [List.cons_append, List.dropWhile_cons, ha, if_true]
    exact ih c r (fun x hx => hall x (List.mem_cons_of_mem a hx)) hc

theorem subWHParse_decomp (p d1 d2 w : Str)
    (hd1 : d1 ≠ []) (hd1d : ∀ x ∈ d1, touche.isDigitC x = true)
    (hd2 : d2 ≠ []) (hd2d : ∀ x ∈ d2, touche.isDigitC x = true)
    (hw : w ≠ []) (hww : ∀ x ∈ w, touche.isWordC x = true) :
    touche.subWHParse (p ++ '-' :: d1 ++ '-' :: d2 ++ '.' :: w) = some (p, w) := by
  have hrev : (p ++ '-' :: d1 ++ '-' :: d2 ++ '.' :: w).reverse
      = w.reverse ++ '.' :: (d2.reverse ++ '-' :: (d1.reverse ++ '-' :: p.reverse)) := by
    simp [List.reverse_append, List.append_assoc]
  have htw : (w.reverse ++ '.' :: (d2.reverse ++ '-' :: (d1.reverse ++ '-' :: p.reverse))).takeWhile
      touche.isWordC = w.reverse :=
    takeWhile_all_append _ _ _ _
      (fun x hx => hww x (List.mem_reverse.mp hx)) (by decide)
  have hdw : (w.reverse ++ '.' :: (d2.reverse ++ '-' :: (d1.reverse ++ '-' :: p.reverse))).dropWhile
      touche.isWordC = '.' :: (d2.reverse ++ '-' :: (d1.reverse ++ '-' :: p.reverse)) :=
    dropWhile_all_append _ _ _ _
      (fun x hx => hww x (List.mem_reverse.mp hx)) (by decide)
  have htd2 : (d2.reverse ++ '-' :: (d1.reverse ++ '-' :: p.reverse)).takeWhile
      touche.isDigitC = d2.reverse :=
    takeWhile_all_append _ _ _ _
      (fun x hx => hd2d x (List.mem_reverse.mp hx)) (by decide)
  have hdd2 : (d2.reverse ++ '-' :: (d1.reverse ++ '-' :: p.reverse)).dropWhile
      touche.isDigitC = '-' :: (d1.reverse ++ '-' :: p.reverse) :=
    dropWhile_all_append _ _ _ _
      (fun x hx => hd2d x (List.mem_reverse.mp hx)) (by decide)
  have htd1 : (d1.reverse ++ '-' :: p.reverse).takeWhile touche.isDigitC = d1.reverse :=
    takeWhile_all_append _ _ _ _
      (fun x hx => hd1d x (List.mem_reverse.mp hx)) (by decide)
  have hdd1 : (d1.reverse ++ '-' :: p.reverse).dropWhile touche.isDigitC
      = '-' :: p.reverse :=
    dropWhile_all_append _ _ _ _
      (fun x hx => hd1d x (List.mem_reverse.mp hx)) (by decide)
  have hwne : w.reverse ≠ [] := by simpa using hw
  have hd2ne : d2.reverse ≠ [] := by simpa using hd2
  have hd1ne : d1.reverse ≠ [] := by simpa using hd1
  rw [touche.subWHParse]
  simp only [hrev, htw, hdw, htd2, hdd2, htd1, hdd1, if_neg hwne, if_neg hd2ne,
    if_neg hd1ne, List.reverse_reverse]

/-- C9 (amended): a candidate src already containing `-1024-1024`
    anywhere is passed through unchanged; a src whose entire string (not
    merely its URL path component) ends in `-<digits>-<digits>.<ext>` and
    contains no `-1024-1024` has that suffix rewritten to
    `-1024-1024.<ext>`; and any src in which the end-anchored pattern
    does not match is passed through unchanged. -/
theorem c9_amended_upgrade_rule :
    (∀ s, pyIn (str "-1024-1024") s = true → touche.upgradeSrc s = s) ∧
    (∀ s, touche.subWHParse s = none → touche.upgradeSrc s = s) ∧
    (∀ p d1 d2 w, d1 ≠ [] → (∀ x ∈ d1, touche.isDigitC x = true) →
      d2 ≠ [] → (∀ x ∈ d2, touche.isDigitC x = true) →
      w ≠ [] → (∀ x ∈ w, touche.isWordC x = true) →
      pyIn (str "-1024-1024") (p ++ '-' :: d1 ++ '-' :: d2 ++ '.' :: w) = false →
      touche.upgradeSrc (p ++ '-' :: d1 ++ '-' :: d2 ++ '.' :: w)
        = p ++ str "-1024-1024." ++ w) := by
  refine ⟨?_, ?_, ?_⟩
  · intro s h
    simp [touche.upgradeSrc, h]
  · intro s h
    simp [touche.upgradeSrc, h]
  · intro p d1 d2 w h1 h2 h3 h4 h5 h6 h7
    rw [touche.upgradeSrc, if_neg (by simpa using h7),
      subWHParse_decomp p d1 d2 w h1 h2 h3 h4 h5 h6]

/-- C9 counterexample: for `https://x/a-2-2.jpg?v=1` the URL's *path*
    (`/a-2-2.jpg`) ends in the width/height pattern and the URL contains
    no `-1024-1024`, so the claim requires the suffix to be rewritten
    (changing the string) — but the code matches its regex against the
    whole src string, whose query-string tail prevents the end-anchored
    match, and passes the URL through unchanged. -/
theorem c9_counterexample_query_string :
    touche.upgradeSrc (str "https://x/a-2-2.jpg?v=1") = str "https://x/a-2-2.jpg?v=1" ∧
    (touche.subWHParse (urlparsePath (str "https://x/a-2-2.jpg?v=1"))).isSome = true ∧
    pyIn (str "-1024-1024") (str "https://x/a-2-2.jpg?v=1") = false := by
  refine ⟨rfl, by decide, by decide⟩

/-- Witness for C9 (amended) at a concrete decomposition. -/
theorem c9_witness :
    touche.upgradeSrc (str "a" ++ '-' :: str "2" ++ '-' :: str "3" ++ '.' :: str "jpg")
      = str "a" ++ str "-1024-1024." ++ str "jpg" :=
  c9_amended_upgrade_rule.2.2 (str "a") (str "2") (str "3") (str "jpg")
    (by decide) (by decide) (by decide) (by decide) (by decide) (by decide)
    (by decide)
